import Mathlib

/-!
Shallow embedding of the multiplayer sketch-game session engine.

The definitions below are translated from the repository's source:
the room/round state machine, drawer rotation and scoring live in the
GameRoom component (startGame, nextRound, awardPoints, loadGameRoom),
guess evaluation and scoring in the ChatArea component (sendMessage,
calculatePoints), and the stroke log and canvas replay in the
DrawingCanvas component (drawStroke, redrawCanvas, startDrawing, draw,
stopDrawing).  Randomness (word selection), timestamps and freshly
generated ids are passed in as explicit parameters; store writes are
modelled as the records they would create or update.
-/

namespace SketchGame

/-- Room lifecycle state, source field gameState of a gameRooms row. -/
inductive GameState where
  | waiting
  | playing
  | finished
deriving DecidableEq, Repr

/-- A gameRooms row as loaded by the GameRoom component. -/
structure GameRoom where
  id : String
  roomCode : String
  hostUserId : String
  currentRound : Nat
  maxRounds : Nat
  roundTime : Nat
  currentDrawerId : Option String
  currentWord : Option String
  gameState : GameState
  roundStartTime : Option Nat
deriving DecidableEq, Repr

/-- A roomPlayers row; the store keeps them in creation (join) order,
which we model as the order of the list holding the rows. -/
structure Player where
  id : String
  userId : String
  displayName : String
  score : Int
  isReady : Bool
deriving DecidableEq, Repr

/-- A gameStats row: per-round record of drawer, word and correct
guessers (the source stores the guesser set as a JSON string, modelled
here as the list it encodes). -/
structure GameStats where
  id : String
  roomId : String
  roundNumber : Nat
  drawerId : String
  word : String
  correctGuessers : List String
deriving DecidableEq, Repr

/-- Ordering used by loadGameRoom's player query: descending score. -/
def scoreGe (a b : Player) : Prop := b.score ≤ a.score

instance : DecidableRel scoreGe := fun a b => inferInstanceAs (Decidable (b.score ≤ a.score))

instance : IsTotal Player scoreGe := ⟨fun a b => le_total b.score a.score⟩

instance : IsTrans Player scoreGe := ⟨fun _ _ _ h1 h2 => le_trans h2 h1⟩

/-- loadGameRoom lists the roomPlayers rows ordered by score descending
(orderBy score desc); the argument is the rows in join order. -/
def loadPlayers (rows : List Player) : List Player :=
  List.insertionSort scoreGe rows

/-- Index used by nextRound:
findIndex of the current drawer in the player list, plus one
(JS findIndex yields -1 when absent, so the sum is then 0). -/
def drawerIdx (room : GameRoom) (players : List Player) : Nat :=
  match players.findIdx? (fun p => room.currentDrawerId == some p.userId) with
  | some i => i + 1
  | none => 0

/-- nextRound's drawer choice: players[(findIndex(current)+1) % players.length]. -/
def nextDrawerOf (room : GameRoom) (players : List Player) : Option Player :=
  players.get? (drawerIdx room players % players.length)

/-- Outcome of a nextRound call: the game-finished update, the
advance update together with the created gameStats row, or the caught
exception path (no store write at all). -/
inductive RoundOutcome where
  | gameFinished (room : GameRoom)
  | advanced (room : GameRoom) (stats : GameStats)
  | failed
deriving DecidableEq, Repr

/-- The nextRound handler of the GameRoom component.  word stands for
the value getRandomWord returned and now for the timestamp taken. -/
def nextRound (room : GameRoom) (players : List Player) (word : String) (now : Nat) :
    RoundOutcome :=
  let nextRoundNumber := room.currentRound + 1
  let nextDrawer := nextDrawerOf room players
  if room.maxRounds < nextRoundNumber then
    RoundOutcome.gameFinished { room with gameState := GameState.finished }
  else
    match nextDrawer with
    | none => RoundOutcome.failed
    | some d =>
        RoundOutcome.advanced
          { room with
              currentRound := nextRoundNumber,
              currentDrawerId := some d.userId,
              currentWord := some word,
              roundStartTime := some now }
          { id := "stats_" ++ room.id ++ "_" ++ toString nextRoundNumber,
            roomId := room.id,
            roundNumber := nextRoundNumber,
            drawerId := d.userId,
            word := word,
            correctGuessers := [] }

/-- Outcome of a startGame call: silent return (guard failed) or the
room update plus the created gameStats row. -/
inductive StartOutcome where
  | noop
  | started (room : GameRoom) (stats : GameStats)
deriving DecidableEq, Repr

/-- The startGame handler of the GameRoom component.  Its guard returns
silently unless the caller is the host and at least two players have
joined; the room state is not examined.  players is the list the
component holds, i.e. the loadGameRoom order. -/
def startGame (room : GameRoom) (players : List Player) (callerUserId : String)
    (word : String) (now : Nat) : StartOutcome :=
  if room.hostUserId = callerUserId ∧ 2 ≤ players.length then
    match players with
    | [] => StartOutcome.noop
    | firstDrawer :: _ =>
        StartOutcome.started
          { room with
              gameState := GameState.playing,
              currentDrawerId := some firstDrawer.userId,
              currentWord := some word,
              currentRound := 1,
              roundStartTime := some now }
          { id := "stats_" ++ room.id ++ "_1",
            roomId := room.id,
            roundNumber := 1,
            drawerId := firstDrawer.userId,
            word := word,
            correctGuessers := [] }
  else StartOutcome.noop

/-- Store state read and written by awardPoints: the roomPlayers rows
and the gameStats row of the current round (none when absent). -/
structure AwardState where
  players : List Player
  stats : Option GameStats
deriving DecidableEq, Repr

/-- Correct-guesser set of an optional gameStats row. -/
def guessersOf : Option GameStats → List String
  | none => []
  | some s => s.correctGuessers

/-- The awardPoints handler of the GameRoom component: find the player
row, unconditionally write score + points, then append the player id to
the round's correct-guesser set only when not already a member. -/
def awardPoints (st : AwardState) (playerId : String) (points : Int) : AwardState :=
  match st.players.find? (fun p => p.userId == playerId) with
  | none => st
  | some player =>
      { players :=
          st.players.map (fun p =>
            if p.id = player.id then { p with score := player.score + points } else p),
        stats :=
          match st.stats with
          | none => none
          | some s =>
              if playerId ∈ s.correctGuessers then some s
              else some { s with correctGuessers := s.correctGuessers ++ [playerId] } }

/-- Score of the first row matching a user id, as awardPoints would find it. -/
def scoreOf (players : List Player) (uid : String) : Option Int :=
  (players.find? (fun p => p.userId == uid)).map Player.score

/-- One room mutation as exposed by the GameRoom component: a startGame
call by some user, or a nextRound call (both parametrised by the player
list the caller holds, the random word and the timestamp). -/
inductive Op where
  | start (callerUserId : String) (players : List Player) (word : String) (now : Nat)
  | advance (players : List Player) (word : String) (now : Nat)
deriving DecidableEq, Repr

/-- Recognises the nextRound operation. -/
def Op.isAdvance : Op → Bool
  | Op.start _ _ _ _ => false
  | Op.advance _ _ _ => true

/-- Effect of one operation on the stored room row (store writes only;
the created gameStats rows are irrelevant to the room state). -/
def applyOp (room : GameRoom) : Op → GameRoom
  | Op.start c ps w n =>
      match startGame room ps c w n with
      | StartOutcome.noop => room
      | StartOutcome.started r _ => r
  | Op.advance ps w n =>
      match nextRound room ps w n with
      | RoundOutcome.gameFinished r => r
      | RoundOutcome.advanced r _ => r
      | RoundOutcome.failed => room

/-- Room row after a sequence of operations. -/
def runOps (room : GameRoom) (ops : List Op) : GameRoom :=
  ops.foldl applyOp room

/-- The scoring function of the ChatArea component.  In the source the
second argument maxTime defaults to 60; numbers are modelled as
rationals and Math.floor as Int.floor. -/
def calculatePoints (timeLeft : ℚ) (maxTime : ℚ) : Int :=
  let basePoints : Int := 100
  let timeBonus : Int := Int.floor (timeLeft / maxTime * 50)
  max (basePoints + timeBonus) 50

/-- JS String.prototype.toLowerCase, modelled characterwise (the game's
words and guesses are plain ASCII text). -/
def jsToLower (s : String) : String := ⟨s.data.map Char.toLower⟩

/-- JS String.prototype.trim: surrounding whitespace removed. -/
def jsTrim (s : String) : String :=
  ⟨((s.data.dropWhile Char.isWhitespace).reverse.dropWhile Char.isWhitespace).reverse⟩

/-- A gameMessages row as created by sendMessage. -/
structure MessageRow where
  userId : String
  displayName : String
  message : String
  isGuess : Bool
  isCorrect : Bool
deriving DecidableEq, Repr

/-- Outcome of a sendMessage call: nothing created (an early return),
or the created message row together with the points it awarded through
onCorrectGuess (none when no award was made). -/
inductive SendResult where
  | noop
  | sent (msg : MessageRow) (award : Option Int)
deriving DecidableEq, Repr

/-- The sendMessage handler of the ChatArea component.  It returns
early on an all-whitespace message or when the drawer tries to chat
during play; otherwise it creates the message row, classifying it as a
guess when the game is playing and the author is not the drawer, and
marking it correct when additionally the lower-cased trimmed text
equals the lower-cased (untrimmed) secret word; a correct guess awards
calculatePoints 60 60 points (the source calls calculatePoints(60),
with maxTime left at its default of 60). -/
def sendMessage (newMessage : String) (userId : String) (displayName : String)
    (currentWord : Option String) (isDrawer : Bool) (gameState : GameState) :
    SendResult :=
  if jsTrim newMessage = "" then SendResult.noop
  else if isDrawer = true ∧ gameState = GameState.playing then SendResult.noop
  else
    let isGss : Bool := decide (gameState = GameState.playing) && !isDrawer
    let isCrt : Bool := isGss &&
      (match currentWord with
       | some w => jsTrim (jsToLower newMessage) == jsToLower w
       | none => false)
    SendResult.sent
      { userId := userId,
        displayName := displayName,
        message := jsTrim newMessage,
        isGuess := isGss,
        isCorrect := isCrt }
      (if isCrt then some (calculatePoints 60 60) else none)

/-- One point of a stroke path (client coordinates, JS numbers modelled
as rationals). -/
structure Point where
  x : ℚ
  y : ℚ
deriving DecidableEq, Repr

/-- Decoded strokeData payload of a drawingStrokes row. -/
structure StrokeData where
  points : List Point
  color : String
  size : ℚ
  isEraser : Bool
deriving DecidableEq, Repr

/-- A drawingStrokes row; strokeData none models a payload that
JSON.parse rejects (redrawCanvas skips such rows). -/
structure DrawingStroke where
  id : String
  roomId : String
  roundNumber : Nat
  strokeData : Option StrokeData
deriving DecidableEq, Repr

/-- Composite mode set on the 2d context before a stroke is painted. -/
inductive CompositeMode where
  | sourceOver
  | destinationOut
deriving DecidableEq, Repr

/-- One operation issued to the canvas context during replay. -/
inductive CanvasOp where
  | clearRect
  | fillWhite
  | strokePath (mode : CompositeMode) (color : String) (width : ℚ) (points : List Point)
deriving DecidableEq, Repr

/-- The drawStroke helper of the DrawingCanvas component: a stroke with
fewer than two points paints nothing; otherwise one path is stroked
with destination-out compositing for an eraser stroke and source-over
otherwise. -/
def drawStroke (sd : StrokeData) : List CanvasOp :=
  if sd.points.length < 2 then []
  else
    [CanvasOp.strokePath
      (if sd.isEraser then CompositeMode.destinationOut else CompositeMode.sourceOver)
      sd.color sd.size sd.points]

/-- The redrawCanvas helper: clear the canvas, fill it white, then
replay every stroke in list (creation) order, skipping rows whose
payload fails to parse. -/
def redrawCanvas (strokes : List DrawingStroke) : List CanvasOp :=
  CanvasOp.clearRect :: CanvasOp.fillWhite ::
    strokes.foldr
      (fun s acc =>
        (match s.strokeData with
         | none => []
         | some sd => drawStroke sd) ++ acc)
      []

/-- Event handled by the drawing channel subscriber: a new_stroke
message (the client reloads the round's stroke rows, given here as the
log it reads back) or a canvas_cleared message. -/
inductive DrawEvent where
  | newStroke (log : List DrawingStroke)
  | canvasCleared
deriving DecidableEq, Repr

/-- The subscriber's effect on the displayed canvas: new_stroke runs
loadStrokes and hence redrawCanvas on the fetched log; canvas_cleared
clears and whitens the canvas directly. -/
def handleDrawEvent (_canvas : List CanvasOp) : DrawEvent → List CanvasOp
  | DrawEvent.newStroke log => redrawCanvas log
  | DrawEvent.canvasCleared => [CanvasOp.clearRect, CanvasOp.fillWhite]

/-- Canvas displayed by a client after a sequence of drawing events. -/
def clientCanvas (init : List CanvasOp) (events : List DrawEvent) : List CanvasOp :=
  events.foldl handleDrawEvent init

/-- The drawing permission computed by the GameRoom component and
passed to the DrawingCanvas: isDrawer and the room is playing. -/
def canDraw (isDrawer : Bool) (gameState : GameState) : Bool :=
  isDrawer && decide (gameState = GameState.playing)

/-- Local state of the DrawingCanvas component together with the stored
stroke rows of the active round (the stroke log stopDrawing appends
to). -/
structure CanvasState where
  isDrawing : Bool
  currentStroke : List Point
  strokes : List DrawingStroke
deriving DecidableEq, Repr

/-- The startDrawing mouse handler: rejected outright without the
drawing permission; otherwise begins a stroke at the cursor. -/
def startDrawing (perm : Bool) (st : CanvasState) (point : Point) : CanvasState :=
  if perm = false then st
  else { st with isDrawing := true, currentStroke := [point] }

/-- The draw mouse handler: ignored unless a stroke is in progress and
the permission holds; otherwise extends the current stroke. -/
def draw (perm : Bool) (st : CanvasState) (point : Point) : CanvasState :=
  if st.isDrawing = false ∨ perm = false then st
  else { st with currentStroke := st.currentStroke ++ [point] }

/-- The stopDrawing handler: without an in-progress stroke, without the
permission, or with fewer than two captured points it only resets the
local state; otherwise it also creates a drawingStrokes row for the
active round (an eraser stroke is saved with color #ffffff and the
eraser flag set). -/
def stopDrawing (perm : Bool) (st : CanvasState) (color : String) (size : ℚ)
    (isEraser : Bool) (roomId : String) (round : Nat) (strokeId : String) :
    CanvasState :=
  if st.isDrawing = false ∨ perm = false ∨ st.currentStroke.length < 2 then
    { st with isDrawing := false, currentStroke := [] }
  else
    { isDrawing := false,
      currentStroke := [],
      strokes := st.strokes ++
        [{ id := strokeId,
           roomId := roomId,
           roundNumber := round,
           strokeData := some
             { points := st.currentStroke,
               color := if isEraser then "#ffffff" else color,
               size := size,
               isEraser := isEraser } }] }

/-- Written from the spec's words, for comparison with nextDrawerOf:
the player immediately after the current drawer in join order, wrapping
around at the end of the list (the argument is the join-order list). -/
def joinOrderNextDrawer (players : List Player) (currentId : Option String) :
    Option Player :=
  match players.findIdx? (fun p => currentId == some p.userId) with
  | some i => players.get? ((i + 1) % players.length)
  | none => none

/-- Room state carried by a startGame outcome, none for the silent return. -/
def startedGameState : StartOutcome → Option GameState
  | StartOutcome.noop => none
  | StartOutcome.started r _ => some r.gameState

/-- Drawer id written by an advancing nextRound outcome. -/
def advancedDrawer : RoundOutcome → Option String
  | RoundOutcome.advanced r _ => r.currentDrawerId
  | _ => none

/-- Example roster: three players in join order a, b, c whose scores
reverse that order. -/
def pA : Player := { id := "p1", userId := "a", displayName := "Ann", score := 10, isReady := true }

/-- Second joiner of the example roster. -/
def pB : Player := { id := "p2", userId := "b", displayName := "Ben", score := 20, isReady := true }

/-- Third joiner of the example roster. -/
def pC : Player := { id := "p3", userId := "c", displayName := "Cal", score := 30, isReady := true }

/-- Example mid-game room whose current drawer is player a. -/
def rrRoom : GameRoom :=
  { id := "r1", roomCode := "ABC123", hostUserId := "a", currentRound := 1, maxRounds := 3,
    roundTime := 60, currentDrawerId := some "a", currentWord := some "cat",
    gameState := GameState.playing, roundStartTime := some 0 }

/-- Example room that has already finished, hosted by user h. -/
def finishedRoom : GameRoom :=
  { id := "r2", roomCode := "DEF456", hostUserId := "h", currentRound := 3, maxRounds := 3,
    roundTime := 60, currentDrawerId := some "a", currentWord := some "cat",
    gameState := GameState.finished, roundStartTime := some 0 }

/-- Example room still waiting for its game to start, hosted by user h. -/
def waitingRoom : GameRoom :=
  { id := "r3", roomCode := "GHI789", hostUserId := "h", currentRound := 0, maxRounds := 3,
    roundTime := 60, currentDrawerId := none, currentWord := none,
    gameState := GameState.waiting, roundStartTime := none }

/-- Example room playing its final round (round 3 of 3). -/
def room33 : GameRoom :=
  { id := "r4", roomCode := "JKL012", hostUserId := "a", currentRound := 3, maxRounds := 3,
    roundTime := 60, currentDrawerId := some "b", currentWord := some "sun",
    gameState := GameState.playing, roundStartTime := some 0 }

/-- Player row used by the point-award example. -/
def awardPlayer : Player :=
  { id := "p9", userId := "u1", displayName := "Uma", score := 0, isReady := true }

/-- Round-stats row in which u1 has already guessed correctly. -/
def awardStats : GameStats :=
  { id := "s1", roomId := "r1", roundNumber := 1, drawerId := "d1", word := "cat",
    correctGuessers := ["u1"] }

/-- Store state just after u1's first correct guess was recorded. -/
def awardSt : AwardState := { players := [awardPlayer], stats := some awardStats }

/-- Example eraser stroke payload. -/
def eraserSD : StrokeData :=
  { points := [{ x := 0, y := 0 }, { x := 1, y := 1 }], color := "#ffffff", size := 5,
    isEraser := true }

/-- Example local canvas state with a stroke in progress. -/
def st0 : CanvasState :=
  { isDrawing := true, currentStroke := [{ x := 0, y := 0 }, { x := 1, y := 1 }], strokes := [] }

/-- Helper: a started outcome of startGame always carries a playing room. -/
theorem startGame_started_playing (room : GameRoom) (ps : List Player) (c w : String)
    (n : Nat) (r : GameRoom) (stats : GameStats)
    (h : startGame room ps c w n = StartOutcome.started r stats) :
    r.gameState = GameState.playing := by
  unfold startGame at h
  by_cases hg : room.hostUserId = c ∧ 2 ≤ ps.length
  · rw [if_pos hg] at h
    cases ps with
    | nil => cases h
    | cons d rest => cases h; rfl
  · rw [if_neg hg] at h; cases h

/-- Helper: a finishing nextRound outcome carries a finished room, and an
advancing one leaves the stored state field untouched. -/
theorem nextRound_outcome_state (room : GameRoom) (ps : List Player) (w : String) (n : Nat) :
    (∀ r, nextRound room ps w n = RoundOutcome.gameFinished r →
      r.gameState = GameState.finished) ∧
    (∀ r s, nextRound room ps w n = RoundOutcome.advanced r s →
      r.gameState = room.gameState) := by
  constructor
  · intro r h
    unfold nextRound at h
    by_cases hgt : room.maxRounds < room.currentRound + 1
    · rw [if_pos hgt] at h; cases h; rfl
    · rw [if_neg hgt] at h
      cases hnd : nextDrawerOf room ps with
      | none => rw [hnd] at h; cases h
      | some d => rw [hnd] at h; cases h
  · intro r s h
    unfold nextRound at h
    by_cases hgt : room.maxRounds < room.currentRound + 1
    · rw [if_pos hgt] at h; cases h
    · rw [if_neg hgt] at h
      cases hnd : nextDrawerOf room ps with
      | none => rw [hnd] at h; cases h
      | some d => rw [hnd] at h; cases h; rfl

/-- Helper: one operation either keeps the room state, sets it to playing
(only a startGame call does that), or sets it to finished. -/
theorem applyOp_state_cases (room : GameRoom) (op : Op) :
    (applyOp room op).gameState = room.gameState ∨
    ((applyOp room op).gameState = GameState.playing ∧ op.isAdvance = false) ∨
    (applyOp room op).gameState = GameState.finished := by
  cases op with
  | start c ps w n =>
      have hred : applyOp room (Op.start c ps w n) =
          (match startGame room ps c w n with
           | StartOutcome.noop => room
           | StartOutcome.started r _ => r) := rfl
      rw [hred]
      cases hs : startGame room ps c w n with
      | noop => exact Or.inl rfl
      | started r stats =>
          exact Or.inr (Or.inl ⟨startGame_started_playing room ps c w n r stats hs, rfl⟩)
  | advance ps w n =>
      have hred : applyOp room (Op.advance ps w n) =
          (match nextRound room ps w n with
           | RoundOutcome.gameFinished r => r
           | RoundOutcome.advanced r _ => r
           | RoundOutcome.failed => room) := rfl
      rw [hred]
      cases hs : nextRound room ps w n with
      | gameFinished r =>
          exact Or.inr (Or.inr ((nextRound_outcome_state room ps w n).1 r hs))
      | advanced r s =>
          exact Or.inl ((nextRound_outcome_state room ps w n).2 r s hs)
      | failed => exact Or.inl rfl

/-- C1, counterexample: in a store state whose round stats already list
player u1 as a correct guesser, a further awardPoints call for u1 still
raises u1's score (0 to 150), so the award is not idempotent per
(player, round) as claimed. -/
theorem awardPoints_second_award_changes_score :
    "u1" ∈ guessersOf awardSt.stats ∧
    scoreOf awardSt.players "u1" = some 0 ∧
    scoreOf (awardPoints awardSt "u1" 150).players "u1" = some 150 ∧
    scoreOf (awardPoints awardSt "u1" 150).players "u1" ≠ scoreOf awardSt.players "u1" := by
  decide

/-- C1, amended: when the awarded player is already in the round's
correct-guesser set, awardPoints leaves the stats row unchanged (the
membership check guards only the set), yet still rewrites the player's
row with score + points. -/
theorem awardPoints_amended (st : AwardState) (pid : String) (pts : Int) (player : Player)
    (hfind : st.players.find? (fun p => p.userId == pid) = some player)
    (hmem : pid ∈ guessersOf st.stats) :
    (awardPoints st pid pts).stats = st.stats ∧
    (awardPoints st pid pts).players =
      st.players.map (fun p =>
        if p.id = player.id then { p with score := player.score + pts } else p) := by
  unfold awardPoints
  rw [hfind]
  cases hst : st.stats with
  | none => rw [hst] at hmem; cases hmem
  | some s =>
      rw [hst] at hmem
      simp only [guessersOf] at hmem
      simp [hmem]

/-- C1, witness: the amended statement evaluated on the concrete store
state awardSt. -/
theorem awardPoints_amended_witness :
    (awardPoints awardSt "u1" 150).stats = awardSt.stats ∧
    (awardPoints awardSt "u1" 150).players =
      awardSt.players.map (fun p =>
        if p.id = awardPlayer.id then { p with score := awardPlayer.score + 150 } else p) :=
  awardPoints_amended awardSt "u1" 150 awardPlayer (by decide) (by decide)

/-- C2, counterexample: with roster a, b, c in join order and scores
10, 20, 30, the room whose drawer is a advances to drawer c (the
successor in the score-descending loaded list) while the join-order
successor is b. -/
theorem nextDrawer_not_join_order :
    advancedDrawer (nextRound rrRoom (loadPlayers [pA, pB, pC]) "dog" 7) = some "c" ∧
    (joinOrderNextDrawer [pA, pB, pC] rrRoom.currentDrawerId).map Player.userId = some "b" ∧
    advancedDrawer (nextRound rrRoom (loadPlayers [pA, pB, pC]) "dog" 7) ≠
      (joinOrderNextDrawer [pA, pB, pC] rrRoom.currentDrawerId).map Player.userId := by
  decide

/-- C2, amended: nextRound picks the player immediately after the
current drawer, with wraparound, in the player list as loaded: that list
is a permutation of the join-order rows sorted by descending score, not
the join order itself. -/
theorem nextRound_drawer_loaded_order (room : GameRoom) (rows : List Player) (i : Nat)
    (h : (loadPlayers rows).findIdx? (fun p => room.currentDrawerId == some p.userId) = some i) :
    nextDrawerOf room (loadPlayers rows) =
      (loadPlayers rows).get? ((i + 1) % (loadPlayers rows).length) ∧
    List.Sorted scoreGe (loadPlayers rows) ∧
    (loadPlayers rows).Perm rows := by
  refine ⟨?_, List.sorted_insertionSort scoreGe rows, List.perm_insertionSort scoreGe rows⟩
  unfold nextDrawerOf drawerIdx
  rw [h]

/-- C2, witness: the amended statement evaluated on the concrete roster
a, b, c where the current drawer a sits at index 2 of the loaded list. -/
theorem nextRound_drawer_loaded_order_witness :
    nextDrawerOf rrRoom (loadPlayers [pA, pB, pC]) =
      (loadPlayers [pA, pB, pC]).get? ((2 + 1) % (loadPlayers [pA, pB, pC]).length) ∧
    List.Sorted scoreGe (loadPlayers [pA, pB, pC]) ∧
    (loadPlayers [pA, pB, pC]).Perm [pA, pB, pC] :=
  nextRound_drawer_loaded_order rrRoom [pA, pB, pC] 2 (by decide)

/-- C3, counterexample: startGame on an already finished room, called by
the host with two players, succeeds and sets the room playing: the
claimed waiting-state precondition is not checked and no failure is
reported. -/
theorem startGame_ignores_waiting_state :
    finishedRoom.gameState = GameState.finished ∧
    startedGameState (startGame finishedRoom [pA, pB] "h" "dog" 5) = some GameState.playing := by
  decide

/-- C3, amended: startGame succeeds exactly when the caller is the host
and at least two players joined, whatever the room state; on success it
sets state playing, round 1, round start now, and drawer := the first
player of the loaded (score-ordered) list; otherwise it is a silent
no-op rather than an InvalidTransition failure. -/
theorem startGame_amended (room : GameRoom) (players : List Player) (caller word : String)
    (now : Nat) :
    (¬(room.hostUserId = caller ∧ 2 ≤ players.length) →
      startGame room players caller word now = StartOutcome.noop) ∧
    (∀ d rest, players = d :: rest → room.hostUserId = caller → 2 ≤ players.length →
      startGame room players caller word now =
        StartOutcome.started
          { room with
              gameState := GameState.playing,
              currentDrawerId := some d.userId,
              currentWord := some word,
              currentRound := 1,
              roundStartTime := some now }
          { id := "stats_" ++ room.id ++ "_1",
            roomId := room.id,
            roundNumber := 1,
            drawerId := d.userId,
            word := word,
            correctGuessers := [] }) := by
  constructor
  · intro hneg
    unfold startGame
    rw [if_neg hneg]
  · intro d rest hp hh hl
    subst hp
    unfold startGame
    rw [if_pos ⟨hh, hl⟩]

/-- C3, witness: the amended statement evaluated on the waiting example
room with its two-player roster. -/
theorem startGame_amended_witness :
    startGame waitingRoom [pA, pB] "h" "dog" 5 =
      StartOutcome.started
        { waitingRoom with
            gameState := GameState.playing,
            currentDrawerId := some pA.userId,
            currentWord := some "dog",
            currentRound := 1,
            roundStartTime := some 5 }
        { id := "stats_" ++ waitingRoom.id ++ "_1",
          roomId := waitingRoom.id,
          roundNumber := 1,
          drawerId := pA.userId,
          word := "dog",
          correctGuessers := [] } :=
  (startGame_amended waitingRoom [pA, pB] "h" "dog" 5).2 pA [pB] rfl rfl (by decide)

/-- C4, counterexample: the time ratio is not clamped, so a timeLeft
above the round length breaks the claimed 150-point cap:
calculatePoints 120 60 = 200, while the claimed clamped formula gives
150 there. -/
theorem calculatePoints_exceeds_cap :
    calculatePoints 120 60 = 200 ∧ 150 < calculatePoints 120 60 ∧
    max (100 + Int.floor (min (max ((120 : ℚ) / 60) 0) 1 * 50)) 50 = 150 := by
  norm_num [calculatePoints]

/-- C4, amended: for a positive round length, calculatePoints is exactly
max(100 + floor(timeLeft/roundDuration * 50), 50) with no clamping; it
is always at least 50, at most 150 whenever timeLeft does not exceed
the round length, and monotone in timeLeft. -/
theorem calculatePoints_amended (m : ℚ) (hm : 0 < m) :
    (∀ t : ℚ, calculatePoints t m = max (100 + Int.floor (t / m * 50)) 50) ∧
    (∀ t : ℚ, 50 ≤ calculatePoints t m) ∧
    (∀ t : ℚ, t ≤ m → calculatePoints t m ≤ 150) ∧
    (∀ t1 t2 : ℚ, t1 ≤ t2 → calculatePoints t1 m ≤ calculatePoints t2 m) := by
  have hdef : ∀ t : ℚ, calculatePoints t m = max (100 + Int.floor (t / m * 50)) 50 :=
    fun t => rfl
  refine ⟨hdef, fun t => ?_, fun t ht => ?_, fun t1 t2 h12 => ?_⟩
  · rw [hdef]; exact le_max_right _ _
  · rw [hdef]
    have h1 : t / m ≤ 1 := (div_le_one hm).mpr ht
    have h2 : t / m * 50 ≤ 50 := by nlinarith
    have h3 : Int.floor (t / m * 50) ≤ Int.floor ((50 : ℚ)) := Int.floor_le_floor h2
    have h4 : Int.floor ((50 : ℚ)) = 50 := by norm_num
    refine max_le (by omega) (by norm_num)
  · rw [hdef, hdef]
    have h1 : t1 / m ≤ t2 / m := by gcongr
    have h2 : t1 / m * 50 ≤ t2 / m * 50 := by nlinarith
    have h3 : Int.floor (t1 / m * 50) ≤ Int.floor (t2 / m * 50) := Int.floor_le_floor h2
    exact max_le_max (by omega) le_rfl

/-- C4, witness: the amended statement evaluated at round length 60 and
the times 30 and 59. -/
theorem calculatePoints_amended_witness :
    ((0 : ℚ) < 60) ∧ calculatePoints 30 60 ≤ calculatePoints 59 60 ∧
      50 ≤ calculatePoints 59 60 :=
  ⟨by norm_num,
   (calculatePoints_amended 60 (by norm_num)).2.2.2 30 59 (by norm_num),
   (calculatePoints_amended 60 (by norm_num)).2.1 59⟩

/-- C5, counterexample: guess text and secret word are not normalized
the same way: the word keeps its surrounding whitespace.  The guess cat
against the stored word (space)cat is equal after lower-casing and
trimming both sides, yet sendMessage marks it incorrect. -/
theorem guess_match_not_symmetric :
    jsTrim (jsToLower "cat") = jsTrim (jsToLower " cat") ∧
    sendMessage "cat" "u" "U" (some " cat") false GameState.playing =
      SendResult.sent
        { userId := "u", displayName := "U", message := "cat", isGuess := true,
          isCorrect := false } none := by
  decide

/-- C5, amended: a created message is a guess exactly when the room is
playing and the author is not the drawer, and it is correct exactly when
additionally its lower-cased trimmed text equals the lower-cased but
untrimmed secret word. -/
theorem sendMessage_classified (msg uid dn : String) (cw : Option String) (d : Bool)
    (gs : GameState) (m : MessageRow) (aw : Option Int)
    (h : sendMessage msg uid dn cw d gs = SendResult.sent m aw) :
    (m.isGuess = true ↔ gs = GameState.playing ∧ d = false) ∧
    (m.isCorrect = true ↔
      (gs = GameState.playing ∧ d = false) ∧
      ∃ w, cw = some w ∧ jsTrim (jsToLower msg) = jsToLower w) := by
  unfold sendMessage at h
  by_cases h1 : jsTrim msg = ""
  · rw [if_pos h1] at h; cases h
  · rw [if_neg h1] at h
    by_cases h2 : d = true ∧ gs = GameState.playing
    · rw [if_pos h2] at h; cases h
    · rw [if_neg h2] at h
      cases h
      constructor
      · simp [Bool.and_eq_true, decide_eq_true_eq, Bool.not_eq_true']
      · cases cw with
        | none => simp
        | some w =>
            simp only [Bool.and_eq_true, decide_eq_true_eq, Bool.not_eq_true', beq_iff_eq]
            constructor
            · rintro ⟨⟨hg, hd⟩, he⟩
              exact ⟨⟨hg, hd⟩, w, rfl, he⟩
            · rintro ⟨⟨hg, hd⟩, w2, hw2, he⟩
              cases hw2
              exact ⟨⟨hg, hd⟩, he⟩

/-- C5, witness: the amended statement evaluated on the wrong guess dog
against the word cat sent by a non-drawer during play. -/
theorem sendMessage_classified_witness :
    (({ userId := "u", displayName := "U", message := "dog", isGuess := true,
        isCorrect := false } : MessageRow).isGuess = true ↔
      GameState.playing = GameState.playing ∧ (false : Bool) = false) ∧
    (({ userId := "u", displayName := "U", message := "dog", isGuess := true,
        isCorrect := false } : MessageRow).isCorrect = true ↔
      (GameState.playing = GameState.playing ∧ (false : Bool) = false) ∧
      ∃ w, (some "cat" : Option String) = some w ∧ jsTrim (jsToLower "dog") = jsToLower w) :=
  sendMessage_classified "dog" "u" "U" (some "cat") false GameState.playing
    { userId := "u", displayName := "U", message := "dog", isGuess := true,
      isCorrect := false } none rfl

/-- C6: on a playing room, nextRound past the round cap only flips the
state to finished, leaving round counter, drawer, word and round start
untouched; under the cap, with a non-empty player list, it increments
the round and installs the new drawer, word and round start. -/
theorem nextRound_boundary (room : GameRoom) (players : List Player) (word : String)
    (now : Nat) (_hplay : room.gameState = GameState.playing) :
    (room.maxRounds < room.currentRound + 1 →
      nextRound room players word now =
        RoundOutcome.gameFinished { room with gameState := GameState.finished }) ∧
    (∀ r, nextRound room players word now = RoundOutcome.gameFinished r →
      r.currentRound = room.currentRound ∧ r.currentDrawerId = room.currentDrawerId ∧
      r.currentWord = room.currentWord ∧ r.roundStartTime = room.roundStartTime) ∧
    (room.currentRound + 1 ≤ room.maxRounds → players ≠ [] →
      ∃ d, nextDrawerOf room players = some d ∧
        nextRound room players word now =
          RoundOutcome.advanced
            { room with
                currentRound := room.currentRound + 1,
                currentDrawerId := some d.userId,
                currentWord := some word,
                roundStartTime := some now }
            { id := "stats_" ++ room.id ++ "_" ++ toString (room.currentRound + 1),
              roomId := room.id,
              roundNumber := room.currentRound + 1,
              drawerId := d.userId,
              word := word,
              correctGuessers := [] }) := by
  refine ⟨fun hgt => ?_, fun r hr => ?_, fun hle hne => ?_⟩
  · unfold nextRound
    rw [if_pos hgt]
  · unfold nextRound at hr
    by_cases hgt : room.maxRounds < room.currentRound + 1
    · rw [if_pos hgt] at hr
      cases hr
      exact ⟨rfl, rfl, rfl, rfl⟩
    · rw [if_neg hgt] at hr
      cases hnd : nextDrawerOf room players with
      | none => rw [hnd] at hr; cases hr
      | some d => rw [hnd] at hr; cases hr
  · have hlen : 0 < players.length := List.length_pos.mpr hne
    have hlt : drawerIdx room players % players.length < players.length :=
      Nat.mod_lt _ hlen
    have hd : nextDrawerOf room players = some (players.get ⟨_, hlt⟩) :=
      List.get?_eq_get hlt
    refine ⟨players.get ⟨_, hlt⟩, hd, ?_⟩
    unfold nextRound
    rw [if_neg (by omega), hd]

/-- C6, witness: the boundary statement evaluated on the example room
playing round 3 of 3. -/
theorem nextRound_boundary_witness :
    nextRound room33 [pA, pB] "dog" 7 =
      RoundOutcome.gameFinished { room33 with gameState := GameState.finished } :=
  (nextRound_boundary room33 [pA, pB] "dog" 7 rfl).1 (by decide)

/-- C7, counterexample: a startGame call by the host of a finished
two-player room moves the room from finished back to playing, so
finished is not terminal under the component's operations. -/
theorem startGame_leaves_finished :
    finishedRoom.gameState = GameState.finished ∧
    (applyOp finishedRoom (Op.start "h" [pA, pB] "dog" 5)).gameState = GameState.playing := by
  decide

/-- C7, amended: over any operation sequence the waiting state is never
re-entered, and finished is preserved by every sequence consisting of
nextRound calls only; startGame, which checks host and player count but
not the state, is the one operation that can leave finished. -/
theorem room_state_forward (room : GameRoom) (ops : List Op) :
    ((runOps room ops).gameState = GameState.waiting → room.gameState = GameState.waiting) ∧
    (room.gameState = GameState.finished → (∀ op ∈ ops, op.isAdvance = true) →
      (runOps room ops).gameState = GameState.finished) := by
  induction ops generalizing room with
  | nil => exact ⟨fun h => h, fun h _ => h⟩
  | cons op rest ih =>
      have hstep : runOps room (op :: rest) = runOps (applyOp room op) rest := rfl
      constructor
      · intro h
        rw [hstep] at h
        have h1 := (ih (applyOp room op)).1 h
        rcases applyOp_state_cases room op with hc | ⟨hc, _⟩ | hc
        · rw [← hc]; exact h1
        · rw [hc] at h1; cases h1
        · rw [hc] at h1; cases h1
      · intro hfin hall
        rw [hstep]
        have hop : op.isAdvance = true := hall op (List.mem_cons_self op rest)
        have hkeep : (applyOp room op).gameState = GameState.finished := by
          rcases applyOp_state_cases room op with hc | ⟨_, hc⟩ | hc
          · rw [hc]; exact hfin
          · rw [hop] at hc; cases hc
          · exact hc
        exact (ih (applyOp room op)).2 hkeep
          (fun o ho => hall o (List.mem_cons_of_mem op ho))

/-- C7, witness: the amended statement evaluated on the waiting example
room under no operations and on the finished example room under one
nextRound call. -/
theorem room_state_forward_witness :
    waitingRoom.gameState = GameState.waiting ∧
    (runOps finishedRoom [Op.advance [pA, pB] "dog" 1]).gameState = GameState.finished :=
  ⟨(room_state_forward waitingRoom []).1 rfl,
   (room_state_forward finishedRoom [Op.advance [pA, pB] "dog" 1]).2 rfl
     (by intro op hop; rw [List.mem_singleton] at hop; subst hop; rfl)⟩

/-- C8: canvas reconstruction.  Any client whose last drawing event
reloads stroke log L displays exactly redrawCanvas L, whatever its
initial canvas or earlier events, so two such clients display identical
canvases; redrawCanvas is a clear, a white fill, then the replay of the
parsed strokes in creation order; and every operation an eraser stroke
contributes uses destination-out compositing (never a white paint). -/
theorem canvas_replay_det :
    (∀ init evs log, clientCanvas init (evs ++ [DrawEvent.newStroke log]) = redrawCanvas log) ∧
    (∀ init1 init2 evs1 evs2 log,
      clientCanvas init1 (evs1 ++ [DrawEvent.newStroke log]) =
        clientCanvas init2 (evs2 ++ [DrawEvent.newStroke log])) ∧
    (∀ log, redrawCanvas log =
      CanvasOp.clearRect :: CanvasOp.fillWhite ::
        log.foldr
          (fun s acc =>
            (match s.strokeData with
             | none => []
             | some sd => drawStroke sd) ++ acc)
          []) ∧
    (∀ sd : StrokeData, sd.isEraser = true → ∀ op ∈ drawStroke sd,
      op = CanvasOp.strokePath CompositeMode.destinationOut sd.color sd.size sd.points) := by
  have hload : ∀ init evs log,
      clientCanvas init (evs ++ [DrawEvent.newStroke log]) = redrawCanvas log := by
    intro init evs log
    unfold clientCanvas
    rw [List.foldl_append]
    rfl
  refine ⟨hload, fun i1 i2 e1 e2 log => by rw [hload, hload], fun log => rfl, ?_⟩
  intro sd hsd op hop
  unfold drawStroke at hop
  by_cases hlen : sd.points.length < 2
  · rw [if_pos hlen] at hop
    cases hop
  · rw [if_neg hlen] at hop
    rcases List.mem_singleton.mp hop with h
    rw [h, hsd]
    simp

/-- C8, witness: the replay statement evaluated on a client that saw a
clear event before reloading the empty log, and on the example eraser
stroke. -/
theorem canvas_replay_det_witness :
    clientCanvas [] ([DrawEvent.canvasCleared] ++ [DrawEvent.newStroke []]) = redrawCanvas [] ∧
    CanvasOp.strokePath CompositeMode.destinationOut eraserSD.color eraserSD.size
        eraserSD.points =
      CanvasOp.strokePath CompositeMode.destinationOut eraserSD.color eraserSD.size
        eraserSD.points :=
  ⟨canvas_replay_det.1 [] [DrawEvent.canvasCleared] [],
   canvas_replay_det.2.2.2 eraserSD rfl _ (by decide)⟩

/-- C9: without the drawing permission (canDraw, which holds exactly for
the current drawer while the room is playing) startDrawing and draw
leave the component state untouched and stopDrawing leaves the stroke
log untouched: no stroke row is ever created. -/
theorem stroke_append_gated (d : Bool) (gs : GameState) (st : CanvasState) (p : Point)
    (color : String) (size : ℚ) (er : Bool) (roomId : String) (round : Nat) (sid : String)
    (h : canDraw d gs = false) :
    startDrawing (canDraw d gs) st p = st ∧
    draw (canDraw d gs) st p = st ∧
    (stopDrawing (canDraw d gs) st color size er roomId round sid).strokes = st.strokes ∧
    (canDraw d gs = true ↔ d = true ∧ gs = GameState.playing) := by
  refine ⟨?_, ?_, ?_, ?_⟩
  · unfold startDrawing
    rw [if_pos h]
  · unfold draw
    rw [if_pos (Or.inr h)]
  · unfold stopDrawing
    rw [if_pos (Or.inr (Or.inl h))]
  · simp [canDraw]

/-- C9, witness: the gating statement evaluated for a non-drawer during
play on the example canvas state. -/
theorem stroke_append_gated_witness :
    startDrawing (canDraw false GameState.playing) st0 { x := 2, y := 2 } = st0 ∧
    draw (canDraw false GameState.playing) st0 { x := 2, y := 2 } = st0 ∧
    (stopDrawing (canDraw false GameState.playing) st0 "#000000" 5 false "r1" 1 "s1").strokes =
      st0.strokes ∧
    (canDraw false GameState.playing = true ↔
      (false : Bool) = true ∧ GameState.playing = GameState.playing) :=
  stroke_append_gated false GameState.playing st0 { x := 2, y := 2 } "#000000" 5 false "r1" 1
    "s1" rfl

/-- C10: every award sendMessage makes is the constant
calculatePoints 60 60 = 150, because the call passes timeLeft = 60 with
the 60-second default round length; the award never depends on the
time actually remaining. -/
theorem correct_guess_award_constant :
    calculatePoints 60 60 = 150 ∧
    (∀ msg uid dn cw d gs m pts,
      sendMessage msg uid dn cw d gs = SendResult.sent m (some pts) → pts = 150) := by
  have h150 : calculatePoints 60 60 = 150 := by norm_num [calculatePoints]
  refine ⟨h150, ?_⟩
  intro msg uid dn cw d gs m pts h
  unfold sendMessage at h
  by_cases h1 : jsTrim msg = ""
  · rw [if_pos h1] at h; cases h
  · rw [if_neg h1] at h
    by_cases h2 : d = true ∧ gs = GameState.playing
    · rw [if_pos h2] at h; cases h
    · rw [if_neg h2] at h
      injection h with hm haw
      split at haw
      · injection haw with hpts
        rw [← hpts]
        exact h150
      · cases haw

/-- C10, witness: the constant-award statement applied to the correct
guess cat for the word cat by a non-drawer during play. -/
theorem correct_guess_award_constant_witness :
    calculatePoints 60 60 = 150 :=
  correct_guess_award_constant.2 "cat" "u" "U" (some "cat") false GameState.playing
    { userId := "u", displayName := "U", message := "cat", isGuess := true, isCorrect := true }
    (calculatePoints 60 60) rfl

end SketchGame
